import Mathlib

/-!
# Shallow embedding of the PII detection-and-redaction engine

This file embeds `src/detector.py` (class `PIIDetector`) in Lean 4 and proves
properties of the embedded functions.

Modelling conventions:
* Python strings are `String` / `List Char`; character classes (`\d`, `\w`,
  `[A-Z]`, whitespace, `str.lower`) are modelled over ASCII, which covers the
  whole domain the specification and its examples use.
* JSON values decoded by `json.loads` are modelled by `Json`; per the
  specification (section 6) a payload is a flat key/value object whose values
  are primitives (string, number, boolean, null).  Numbers are modelled as
  integers.  `Json.arr` provides the non-object document shape needed to
  reason about the orchestrator's behaviour on valid non-object payloads.
* A Python function that can raise an uncaught exception is embedded as an
  `Option`-valued function, `none` meaning "raises".
* `json.loads` / `json.dumps` are standard-library collaborators, not code of
  this repository; the orchestrator is therefore parameterised by a `decode`
  function (`none` modelling `json.JSONDecodeError`) and an `encode` function.
* Regex searches (`pattern.search(value)` used as a boolean) are embedded as
  executable substring-match predicates: a search succeeds exactly when some
  decomposition of the text matches the pattern, with Python's word-boundary
  (`\b`) semantics made explicit.
-/

/-- A JSON primitive value as decoded by `json.loads` for a record field. -/
inductive JVal where
  | str (s : String)
  | num (n : Int)
  | bool (b : Bool)
  | null
deriving DecidableEq, Repr

/-- A decoded JSON document: a primitive, an array, or a flat object. -/
inductive Json where
  | val (v : JVal)
  | arr (xs : List JVal)
  | obj (kvs : List (String × JVal))
deriving DecidableEq, Repr

/-- Python `str(value)` for the primitive values a record field can hold. -/
def pyStr : JVal → String
  | JVal.str s => s
  | JVal.num n => toString n
  | JVal.bool true => "True"
  | JVal.bool false => "False"
  | JVal.null => "None"

/-- Python regex word character (`\w`, ASCII): letter, digit or underscore. -/
def isWordChar (c : Char) : Bool := c.isAlphanum || c == '_'

/-- The character at position `i`, if any, is a word character. -/
def isWordAt (cs : List Char) (i : Nat) : Bool :=
  match cs.get? i with
  | some c => isWordChar c
  | none => false

/-- Python regex `\b` at position `i` (a position lies between characters
`i - 1` and `i`): exactly one side is a word character, a missing character
(start or end of the text) counting as a non-word character. -/
def boundaryAt (cs : List Char) (i : Nat) : Bool :=
  (match i with
   | 0 => false
   | j + 1 => isWordAt cs j) != isWordAt cs i

/-- Positions `i, i+1, ..., i+n-1` all exist and hold decimal digits
(`\d{n}` anchored at `i`). -/
def digitsAt (cs : List Char) (i n : Nat) : Bool :=
  (List.range n).all (fun j =>
    match cs.get? (i + j) with
    | some c => c.isDigit
    | none => false)

/-- `\b\d{n}\b` matches at position `i`. -/
def boundedDigitsAt (cs : List Char) (i n : Nat) : Bool :=
  boundaryAt cs i && digitsAt cs i n && boundaryAt cs (i + n)

/-- `re.search` for `\b\d{n}\b`: some position of the text starts a match. -/
def searchDigitRun (s : String) (n : Nat) : Bool :=
  (List.range (s.data.length + 1)).any (fun i => boundedDigitsAt s.data i n)

/-- `self.phone_pattern.search(value)` viewed as a boolean:
pattern `\b\d{10}\b`. -/
def phone_search (s : String) : Bool := searchDigitRun s 10

/-- `self.aadhar_pattern.search(value)` viewed as a boolean:
pattern `\b\d{12}\b`. -/
def aadhar_search (s : String) : Bool := searchDigitRun s 12

/-- The character at position `i`, if any, is an ASCII uppercase letter
(`[A-Z]`). -/
def upperAt (cs : List Char) (i : Nat) : Bool :=
  match cs.get? i with
  | some c => decide ('A' ≤ c) && decide (c ≤ 'Z')
  | none => false

/-- `\b[A-Z]{1}\d{7}\b` matches at position `i`. -/
def passportAt (cs : List Char) (i : Nat) : Bool :=
  boundaryAt cs i && upperAt cs i && digitsAt cs (i + 1) 7 && boundaryAt cs (i + 8)

/-- `self.passport_pattern.search(value)` viewed as a boolean:
pattern `\b[A-Z]{1}\d{7}\b`. -/
def passport_search (s : String) : Bool :=
  (List.range (s.data.length + 1)).any (fun i => passportAt s.data i)

/-- A character of the regex class `[\w\.-]`. -/
def upiClassChar (c : Char) : Bool := isWordChar c || c == '.' || c == '-'

/-- Positions `i, ..., j-1` all exist and satisfy `p`. -/
def allIn (p : Char → Bool) (cs : List Char) (i j : Nat) : Bool :=
  (List.range (j - i)).all (fun k =>
    match cs.get? (i + k) with
    | some c => p c
    | none => false)

/-- The character at position `i` exists and equals `c`. -/
def charIs (cs : List Char) (i : Nat) (c : Char) : Bool :=
  match cs.get? i with
  | some c2 => c2 == c
  | none => false

/-- The first alternative of the UPI pattern, `\b[\w\.-]+@[\w\.-]+\.\w+\b`,
matches the span `[a, d)` with the `@` at position `b` and the last `.` of the
domain at position `c`. -/
def upiAlt1At (cs : List Char) (a b c d : Nat) : Bool :=
  decide (a < b) && decide (b + 1 < c) && decide (c + 1 < d) &&
  boundaryAt cs a && allIn upiClassChar cs a b && charIs cs b '@' &&
  allIn upiClassChar cs (b + 1) c && charIs cs c '.' &&
  allIn isWordChar cs (c + 1) d && boundaryAt cs d

/-- The second alternative of the UPI pattern, `\b\d{10}@\w+\b`, matches the
span `[i, j)`. -/
def upiAlt2At (cs : List Char) (i j : Nat) : Bool :=
  boundaryAt cs i && digitsAt cs i 10 && charIs cs (i + 10) '@' &&
  decide (i + 11 ≤ j) && allIn isWordChar cs (i + 11) j && boundaryAt cs j

/-- `self.upi_pattern.search(value)` viewed as a boolean:
pattern `\b[\w\.-]+@[\w\.-]+\.\w+\b|\b\d{10}@\w+\b`; a search succeeds
exactly when some decomposition of the text matches one alternative. -/
def upi_search (s : String) : Bool :=
  let cs := s.data
  let r := List.range (cs.length + 1)
  (r.any (fun a => r.any (fun b => r.any (fun c => r.any (fun d =>
    upiAlt1At cs a b c d))))) ||
  (r.any (fun i => r.any (fun j => upiAlt2At cs i j)))

/-- `detect_standalone_pii` (src/detector.py, lines 14-21): a string value
contains standalone PII when any of the four patterns matches somewhere in
it.  The `isinstance(value, str)` test is the identity on this domain, since
the orchestrator always calls it on `str(value)`. -/
def detect_standalone_pii (value : String) : Bool :=
  phone_search value || aadhar_search value || passport_search value ||
  upi_search value

/-- Python `value.split(sep, 1)` under the guard `sep in value`: the text
before the first `sep` and the text after it. -/
def splitAtFirst : List Char → Char → List Char × List Char
  | [], _ => ([], [])
  | c :: rest, sep =>
    if c == sep then ([], rest)
    else
      let p := splitAtFirst rest sep
      (c :: p.1, p.2)

/-- Python `value.split()` (split on whitespace runs, dropping empty pieces),
with an accumulator holding the reversed current token. -/
def pySplitAux : List Char → List Char → List (List Char)
  | [], cur => if cur = [] then [] else [cur.reverse]
  | c :: rest, cur =>
    if c.isWhitespace then
      if cur = [] then pySplitAux rest []
      else cur.reverse :: pySplitAux rest []
    else pySplitAux rest (c :: cur)

/-- Leftmost position at which `\b\d{n}\b` matches, if any
(`re.search(r'\b\d{6}\b', value)` with `n = 6`). -/
def findDigitRun (cs : List Char) (n : Nat) : Option Nat :=
  (List.range (cs.length + 1)).find? (fun i => boundedDigitsAt cs i n)

/-- The text of a match of length `n` starting at position `i`
(`match.group()`). -/
def extractAt (cs : List Char) (i n : Nat) : String :=
  String.mk ((cs.drop i).take n)

/-- `redact_value` (src/detector.py, lines 44-69).  Non-string values pass
through unchanged; string values go through the chain of field-keyed masking
branches.  `none` models an uncaught Python exception: in the `name` branch,
`parts[0]` raises `IndexError` when `value.split()` is empty, and indexing
`[0]` into an empty token would likewise raise.  Python `value[:2]` is
`String.take 2`, `value[-k:]` is `String.takeRight k` (both clamp short
strings the same way slicing does). -/
def redact_value (key : String) (value : JVal) : Option JVal :=
  match value with
  | JVal.str v =>
    if key = "phone" ∧ phone_search v = true then
      some (JVal.str (v.take 2 ++ "XXXXXX" ++ v.takeRight 2))
    else if key = "aadhar" ∧ aadhar_search v = true then
      some (JVal.str ("XXXX XXXX " ++ v.takeRight 4))
    else if key = "passport" ∧ passport_search v = true then
      match v.data with
      | [] => none
      | c :: _ => some (JVal.str (String.mk [c] ++ "XXXXXXX"))
    else if key = "upi_id" ∧ upi_search v = true then
      if '@' ∈ v.data then
        some (JVal.str (String.mk ((splitAtFirst v.data '@').1.take 2) ++
          "XXX@" ++ String.mk (splitAtFirst v.data '@').2))
      else
        some (JVal.str (v.take 2 ++ "XXXXXX" ++ v.takeRight 4))
    else if key = "name" ∧ ' ' ∈ v.data then
      match pySplitAux v.data [] with
      | [] => none
      | p :: ps =>
        match p.head?, ((p :: ps).getLast (List.cons_ne_nil p ps)).head? with
        | some c0, some cl =>
          some (JVal.str (String.mk [c0] ++ "XXX " ++ String.mk [cl] ++ "XXX"))
        | _, _ => none
    else if key = "email" ∧ '@' ∈ v.data then
      some (JVal.str (String.mk ((splitAtFirst v.data '@').1.take 2) ++
        "XXX@" ++ String.mk (splitAtFirst v.data '@').2))
    else if key = "address" then
      match findDigitRun v.data 6 with
      | some i => some (JVal.str ("[REDACTED_ADDRESS], " ++ extractAt v.data i 6))
      | none => some (JVal.str "[REDACTED_ADDRESS]")
    else
      some (JVal.str v)
  | other => some other

/-- The per-record combinatorial flag mapping (`combinatorial_flags`). -/
structure CombFlags where
  name : Bool
  email : Bool
  address : Bool
  device_ip : Bool
deriving DecidableEq, Repr

/-- Lowercased character list of a string (`value.lower()`, ASCII). -/
def lowerData (s : String) : List Char := s.data.map Char.toLower

/-- `pat` occurs as a contiguous substring of `s` (Python `pat in s`). -/
def isSubstrOf (pat s : List Char) : Bool :=
  (List.range (s.length + 1)).any (fun i => pat.isPrefixOf (s.drop i))

/-- `any(term in value.lower() for term in ['road', 'street', 'lane',
'avenue', 'nagar'])`. -/
def addressTermHit (v : String) : Bool :=
  ["road", "street", "lane", "avenue", "nagar"].any
    (fun t => isSubstrOf t.data (lowerData v))

/-- One iteration of the flag-setting loop of `detect_combinatorial_pii`
(src/detector.py, lines 31-40): the four keyed tests run on a `(key, value)`
entry, all inside the `isinstance(value, str)` guard. -/
def combStep (fl : CombFlags) (kv : String × JVal) : CombFlags :=
  match kv.2 with
  | JVal.str v =>
    let fl1 := if kv.1 = "name" ∧ ' ' ∈ v.data ∧ 2 ≤ (pySplitAux v.data []).length
      then { fl with name := true } else fl
    let fl2 := if kv.1 = "email" ∧ '@' ∈ v.data
      then { fl1 with email := true } else fl1
    let fl3 := if kv.1 = "address" ∧ addressTermHit v = true
      then { fl2 with address := true } else fl2
    if kv.1 = "device_id" ∨ kv.1 = "ip_address"
      then { fl3 with device_ip := true } else fl3
  | _ => fl

/-- The flag mapping after the loop over all entries of the record. -/
def combFlagsOf (data : List (String × JVal)) : CombFlags :=
  data.foldl combStep ⟨false, false, false, false⟩

/-- Python `sum` over one boolean flag. -/
def boolNat (b : Bool) : Nat := if b then 1 else 0

/-- `sum(combinatorial_flags.values())`. -/
def combCount (fl : CombFlags) : Nat :=
  boolNat fl.name + boolNat fl.email + boolNat fl.address + boolNat fl.device_ip

/-- `detect_combinatorial_pii` (src/detector.py, lines 23-42). -/
def detect_combinatorial_pii (data : List (String × JVal)) : Bool :=
  decide (2 ≤ combCount (combFlagsOf data))

/-- One entry sets the `name` flag: the test of the first keyed conditional
of the flag loop on a single `(key, value)` pair. -/
def nameHit (kv : String × JVal) : Bool :=
  match kv.2 with
  | JVal.str v => decide (kv.1 = "name" ∧ ' ' ∈ v.data ∧ 2 ≤ (pySplitAux v.data []).length)
  | _ => false

/-- One entry sets the `email` flag. -/
def emailHit (kv : String × JVal) : Bool :=
  match kv.2 with
  | JVal.str v => decide (kv.1 = "email" ∧ '@' ∈ v.data)
  | _ => false

/-- One entry sets the `address` flag. -/
def addressHit (kv : String × JVal) : Bool :=
  match kv.2 with
  | JVal.str v => decide (kv.1 = "address" ∧ addressTermHit v = true)
  | _ => false

/-- One entry sets the `device_ip` flag.  Note the test runs inside the
`isinstance(value, str)` guard of the loop, so only a string-valued
`device_id` / `ip_address` entry sets the flag. -/
def deviceHit (kv : String × JVal) : Bool :=
  match kv.2 with
  | JVal.str _ => decide (kv.1 = "device_id" ∨ kv.1 = "ip_address")
  | _ => false

/-- The `name` signal of a record mapping: some entry sets the `name` flag. -/
def nameSignal (data : List (String × JVal)) : Bool := data.any nameHit

/-- The `email` signal of a record mapping. -/
def emailSignal (data : List (String × JVal)) : Bool := data.any emailHit

/-- The `address` signal of a record mapping. -/
def addressSignal (data : List (String × JVal)) : Bool := data.any addressHit

/-- The `device_ip` signal of a record mapping. -/
def deviceIpSignal (data : List (String × JVal)) : Bool := data.any deviceHit

/-- The first loop of `process_record` (src/detector.py, lines 80-85): each
entry whose stringified value triggers standalone detection is redacted under
its own key; the returned boolean is `has_pii` after the loop.  `none` models
an exception escaping from `redact_value`. -/
def pass1 : List (String × JVal) → Option (List (String × JVal) × Bool)
  | [] => some ([], false)
  | (k, v) :: rest =>
    if detect_standalone_pii (pyStr v) = true then
      match redact_value k v, pass1 rest with
      | some v2, some (r, _) => some ((k, v2) :: r, true)
      | _, _ => none
    else
      match pass1 rest with
      | some (r, f) => some ((k, v) :: r, f)
      | none => none

/-- The combinatorial re-redaction loop of `process_record`
(src/detector.py, lines 89-91): every entry whose key is one of the five
listed names is redacted in place; other entries are untouched. -/
def pass2 : List (String × JVal) → Option (List (String × JVal))
  | [] => some []
  | (k, v) :: rest =>
    if k = "name" ∨ k = "email" ∨ k = "address" ∨ k = "device_id" ∨ k = "ip_address" then
      match redact_value k v, pass2 rest with
      | some v2, some r => some ((k, v2) :: r)
      | _, _ => none
    else
      match pass2 rest with
      | some r => some ((k, v) :: r)
      | none => none

/-- The body of `process_record` on a successfully decoded object
(src/detector.py, lines 77-93): the standalone pass, then — only when it
flagged nothing and `detect_combinatorial_pii` holds on the original
mapping — the re-redaction pass with a final flag of `true`. -/
def processData (data : List (String × JVal)) : Option (List (String × JVal) × Bool) :=
  match pass1 data with
  | none => none
  | some (d1, hasPii) =>
    if hasPii = false ∧ detect_combinatorial_pii data = true then
      match pass2 d1 with
      | none => none
      | some d2 => some (d2, true)
    else
      some (d1, hasPii)

/-- `process_record` (src/detector.py, lines 71-93), parameterised by the
library collaborators: `decode` models `json.loads` (`none` meaning
`json.JSONDecodeError`) and `encode` models `json.dumps` on the flat object
produced.  A decode failure returns the payload verbatim and `false`; a
decoded non-object document makes `data.items()` raise `AttributeError`,
modelled by `none`.  `recordId` is accepted and unused, as in the source. -/
def process_record (decode : String → Option Json)
    (encode : List (String × JVal) → String)
    (recordId : Int) (dataJson : String) : Option (String × Bool) :=
  match decode dataJson with
  | none => some (dataJson, false)
  | some (Json.obj kvs) =>
    match processData kvs with
    | none => none
    | some (out, flag) => some (encode out, flag)
  | some _ => none

/-! ## Theorems -/

/-- C1.  The specification asserts that every engine operation, in particular
`redact_value('name', v)` for any string `v` containing a space, is total.
The code is not: with `key = 'name'` and `value = ' '`, the guard
`' ' in value` holds but `value.split()` is empty, so `parts[0]` raises
`IndexError`.  This theorem evaluates the embedded code at that failing
input: the result is `none`, i.e. an uncaught exception. -/
theorem redact_value_name_whitespace_raises :
    redact_value "name" (JVal.str " ") = none := by decide

/-- C3.  For every payload whose decode fails (`json.loads` raises
`JSONDecodeError`), `process_record` returns the original payload string
unchanged paired with a PII flag of `false`, and does not raise. -/
theorem process_record_malformed_payload
    (decode : String → Option Json) (encode : List (String × JVal) → String)
    (recordId : Int) (dataJson : String) (h : decode dataJson = none) :
    process_record decode encode recordId dataJson = some (dataJson, false) := by
  unfold process_record
  rw [h]

/-- Witness for C3 at a concrete malformed payload. -/
theorem process_record_malformed_payload_witness :
    process_record (fun _ => none) (fun _ => "") 0 "not json" = some ("not json", false) :=
  process_record_malformed_payload (fun _ => none) (fun _ => "") 0 "not json" rfl

/-- C7.  For every string in which the phone pattern `\b\d{10}\b` matches,
`redact_value 'phone'` keeps the first two and last two characters and puts
the fixed six-character mask between them: the output is
`v[0:2] + 'XXXXXX' + v[-2:]`. -/
theorem redact_phone_keeps_ends (v : String) (h : phone_search v = true) :
    redact_value "phone" (JVal.str v) =
      some (JVal.str (v.take 2 ++ "XXXXXX" ++ v.takeRight 2)) := by
  simp [redact_value, h]

/-- Witness for C7 at a concrete ten-digit value. -/
theorem redact_phone_keeps_ends_witness :
    redact_value "phone" (JVal.str "9876543210") =
      some (JVal.str ("9876543210".take 2 ++ "XXXXXX" ++ "9876543210".takeRight 2)) :=
  redact_phone_keeps_ends "9876543210" (by decide)

/-- C8.  The decode-failure recovery covers only syntactically invalid
payloads: when the payload decodes to a non-object JSON document (array or
primitive), `data.items()` raises `AttributeError`, which `process_record`
does not catch — the embedded function returns `none` instead of a
`(payload, flag)` result. -/
theorem process_record_nonobject_raises
    (decode : String → Option Json) (encode : List (String × JVal) → String)
    (recordId : Int) (dataJson : String) (j : Json)
    (h : decode dataJson = some j) (hno : ∀ kvs, j ≠ Json.obj kvs) :
    process_record decode encode recordId dataJson = none := by
  unfold process_record
  rw [h]
  cases j with
  | val v => rfl
  | arr xs => rfl
  | obj kvs => exact absurd rfl (hno kvs)

/-- Witness for C8 at a concrete payload decoding to a JSON array. -/
theorem process_record_nonobject_raises_witness :
    process_record (fun _ => some (Json.arr [])) (fun _ => "") 0 "[]" = none :=
  process_record_nonobject_raises (fun _ => some (Json.arr [])) (fun _ => "") 0 "[]"
    (Json.arr []) rfl (fun kvs h => Json.noConfusion h)

/-- The standalone pass keeps every key in place: it only replaces values. -/
theorem pass1_keys (data : List (String × JVal)) :
    ∀ d1 f, pass1 data = some (d1, f) → d1.map Prod.fst = data.map Prod.fst := by
  induction data with
  | nil =>
    intro d1 f h
    simp only [pass1, Option.some.injEq, Prod.mk.injEq] at h
    rw [← h.1]
  | cons kv rest ih =>
    intro d1 f h
    obtain ⟨k, v⟩ := kv
    simp only [pass1] at h
    split at h
    · split at h
      · rename_i v2 r f2 hred hrest
        simp only [Option.some.injEq, Prod.mk.injEq] at h
        rw [← h.1]
        simp only [List.map_cons, List.cons.injEq]
        exact ⟨trivial, ih r f2 hrest⟩
      · exact absurd h (by simp)
    · split at h
      · rename_i r f2 hrest
        simp only [Option.some.injEq, Prod.mk.injEq] at h
        rw [← h.1]
        simp only [List.map_cons, List.cons.injEq]
        exact ⟨trivial, ih r f2 hrest⟩
      · exact absurd h (by simp)

/-- The combinatorial re-redaction pass keeps every key in place. -/
theorem pass2_keys (data : List (String × JVal)) :
    ∀ d2, pass2 data = some d2 → d2.map Prod.fst = data.map Prod.fst := by
  induction data with
  | nil =>
    intro d2 h
    simp only [pass2, Option.some.injEq] at h
    rw [← h]
  | cons kv rest ih =>
    intro d2 h
    obtain ⟨k, v⟩ := kv
    simp only [pass2] at h
    split at h
    · split at h
      · rename_i v2 r hred hrest
        simp only [Option.some.injEq] at h
        rw [← h]
        simp only [List.map_cons, List.cons.injEq]
        exact ⟨trivial, ih r hrest⟩
      · exact absurd h (by simp)
    · split at h
      · rename_i r hrest
        simp only [Option.some.injEq] at h
        rw [← h]
        simp only [List.map_cons, List.cons.injEq]
        exact ⟨trivial, ih r hrest⟩
      · exact absurd h (by simp)

/-- C4.  For every decoded mapping on which `process_record`'s body succeeds,
the resulting mapping has exactly the same keys in exactly the same insertion
order as the input mapping: detection and redaction replace values only,
never remove or add keys.  (The encoded payload `process_record` returns is
`encode` applied to this mapping.) -/
theorem process_record_preserves_keys (data out : List (String × JVal)) (flag : Bool)
    (h : processData data = some (out, flag)) :
    out.map Prod.fst = data.map Prod.fst := by
  unfold processData at h
  split at h
  · exact absurd h (by simp)
  · rename_i d1 hasPii hp
    split at h
    · split at h
      · exact absurd h (by simp)
      · rename_i d2 h2
        simp only [Option.some.injEq, Prod.mk.injEq] at h
        rw [← h.1]
        exact (pass2_keys d1 d2 h2).trans (pass1_keys data d1 hasPii hp)
    · simp only [Option.some.injEq, Prod.mk.injEq] at h
      rw [← h.1]
      exact pass1_keys data d1 hasPii hp

/-- Witness for C4 at a concrete one-field record. -/
theorem process_record_preserves_keys_witness :
    ([("a", JVal.null)] : List (String × JVal)).map Prod.fst =
      [("a", JVal.null)].map Prod.fst :=
  process_record_preserves_keys [("a", JVal.null)] [("a", JVal.null)] false (by decide)

/-- The flag loop's effect on the `name` flag of the running flag mapping. -/
theorem combStep_name (fl : CombFlags) (kv : String × JVal) :
    (combStep fl kv).name = (fl.name || nameHit kv) := by
  obtain ⟨k, v⟩ := kv
  cases v <;> simp only [combStep, nameHit] <;> try simp
  split_ifs <;> simp_all

/-- The flag loop's effect on the `email` flag. -/
theorem combStep_email (fl : CombFlags) (kv : String × JVal) :
    (combStep fl kv).email = (fl.email || emailHit kv) := by
  obtain ⟨k, v⟩ := kv
  cases v <;> simp only [combStep, emailHit] <;> try simp
  split_ifs <;> simp_all

/-- The flag loop's effect on the `address` flag. -/
theorem combStep_address (fl : CombFlags) (kv : String × JVal) :
    (combStep fl kv).address = (fl.address || addressHit kv) := by
  obtain ⟨k, v⟩ := kv
  cases v <;> simp only [combStep, addressHit] <;> try simp
  split_ifs <;> simp_all

/-- The flag loop's effect on the `device_ip` flag. -/
theorem combStep_device (fl : CombFlags) (kv : String × JVal) :
    (combStep fl kv).device_ip = (fl.device_ip || deviceHit kv) := by
  obtain ⟨k, v⟩ := kv
  cases v <;> simp only [combStep, deviceHit] <;> try simp
  split_ifs <;> simp_all

/-- Running the flag loop from any starting flags yields, per category, the
disjunction of the starting flag with the corresponding signal of the
mapping. -/
theorem foldl_combStep (data : List (String × JVal)) :
    ∀ fl : CombFlags, data.foldl combStep fl =
      ⟨fl.name || nameSignal data, fl.email || emailSignal data,
       fl.address || addressSignal data, fl.device_ip || deviceIpSignal data⟩ := by
  induction data with
  | nil =>
    intro fl
    simp [nameSignal, emailSignal, addressSignal, deviceIpSignal]
  | cons kv rest ih =>
    intro fl
    simp only [List.foldl_cons]
    rw [ih (combStep fl kv)]
    simp only [nameSignal, emailSignal, addressSignal, deviceIpSignal, List.any_cons,
      combStep_name, combStep_email, combStep_address, combStep_device, Bool.or_assoc]

/-- The flag mapping computed by `detect_combinatorial_pii` is exactly the
four signals of the record mapping. -/
theorem combFlagsOf_eq_signals (data : List (String × JVal)) :
    combFlagsOf data =
      ⟨nameSignal data, emailSignal data, addressSignal data, deviceIpSignal data⟩ := by
  unfold combFlagsOf
  rw [foldl_combStep]
  simp

/-- C6.  `detect_combinatorial_pii` returns true exactly when at least two of
the four signals (`name`, `email`, `address`, `device_ip`) hold for the
record mapping; in particular the mapping with only `name = 'Jane Doe'` and
`email = 'jane@x.com'` is flagged (2 signals) while the mapping with only
`name = 'Jane Doe'` is not (1 signal). -/
theorem detect_combinatorial_two_of_four :
    (∀ data : List (String × JVal),
      (detect_combinatorial_pii data = true ↔
        2 ≤ boolNat (nameSignal data) + boolNat (emailSignal data) +
            boolNat (addressSignal data) + boolNat (deviceIpSignal data)))
    ∧ detect_combinatorial_pii
        [("name", JVal.str "Jane Doe"), ("email", JVal.str "jane@x.com")] = true
    ∧ detect_combinatorial_pii [("name", JVal.str "Jane Doe")] = false := by
  refine ⟨fun data => ?_, by decide, by decide⟩
  unfold detect_combinatorial_pii
  rw [combFlagsOf_eq_signals]
  simp [combCount]

/-- C2, counterexample.  The claim says key presence alone — regardless of
the value's type — sets the `device_ip` signal.  It does not: the presence
test sits inside the `isinstance(value, str)` guard of the flag loop, so a
`device_id` key with the number `1` as value leaves the flag false, and a
record with `device_id = 1` and `name = 'Jane Doe'` (which the claim would
flag with two signals) is not flagged. -/
theorem device_ip_presence_counterexample :
    (combFlagsOf [("device_id", JVal.num 1)]).device_ip = false ∧
    detect_combinatorial_pii
      [("device_id", JVal.num 1), ("name", JVal.str "Jane Doe")] = false := by
  decide

/-- C2, amended.  If the mapping contains a key named `device_id` or
`ip_address` whose value is a string — whatever its content — then the
`device_ip` flag computed by `detect_combinatorial_pii` is true. -/
theorem device_ip_signal_of_string_value (data : List (String × JVal)) (k s : String)
    (hmem : (k, JVal.str s) ∈ data) (hk : k = "device_id" ∨ k = "ip_address") :
    (combFlagsOf data).device_ip = true := by
  rw [combFlagsOf_eq_signals]
  show deviceIpSignal data = true
  unfold deviceIpSignal
  rw [List.any_eq_true]
  refine ⟨(k, JVal.str s), hmem, ?_⟩
  simp only [deviceHit]
  exact decide_eq_true hk

/-- Witness for the amended C2 at a concrete record. -/
theorem device_ip_signal_of_string_value_witness :
    (combFlagsOf [("ip_address", JVal.str "10.0.0.1")]).device_ip = true :=
  device_ip_signal_of_string_value [("ip_address", JVal.str "10.0.0.1")]
    "ip_address" "10.0.0.1" (by simp) (Or.inr rfl)

/-- Redaction passes non-string values through unchanged, whatever the key
(first conditional of `redact_value`). -/
theorem redact_value_nonstr (k : String) (v : JVal) (hv : ∀ s, v ≠ JVal.str s) :
    redact_value k v = some v := by
  cases v with
  | str s => exact absurd rfl (hv s)
  | num n => rfl
  | bool b => rfl
  | null => rfl

/-- If an entry of the record triggers standalone detection on its
stringified value and its redaction is the identity, the standalone pass
flags the record and keeps that entry in the output unchanged. -/
theorem pass1_detected_mem (data : List (String × JVal)) (k : String) (v : JVal) :
    ∀ d1 f, (k, v) ∈ data → detect_standalone_pii (pyStr v) = true →
      redact_value k v = some v → pass1 data = some (d1, f) →
      f = true ∧ (k, v) ∈ d1 := by
  induction data with
  | nil =>
    intro d1 f hmem _ _ _
    exact absurd hmem (List.not_mem_nil _)
  | cons kv rest ih =>
    intro d1 f hmem hdet hred h
    obtain ⟨k0, v0⟩ := kv
    simp only [pass1] at h
    rcases List.mem_cons.mp hmem with heq | hmem2
    · obtain ⟨hk, hv⟩ := Prod.mk.injEq k v k0 v0 |>.mp heq
      subst hk
      subst hv
      rw [if_pos hdet, hred] at h
      cases hrest : pass1 rest with
      | none =>
        rw [hrest] at h
        exact absurd h (by simp)
      | some pr =>
        obtain ⟨r, f2⟩ := pr
        rw [hrest] at h
        simp only [Option.some.injEq, Prod.mk.injEq] at h
        refine ⟨h.2.symm, ?_⟩
        rw [← h.1]
        exact List.mem_cons_self _ _
    · split at h
      · split at h
        · rename_i v2 r f2 hred0 hrest
          simp only [Option.some.injEq, Prod.mk.injEq] at h
          have hr := ih r f2 hmem2 hdet hred hrest
          exact ⟨h.2.symm, h.1 ▸ List.mem_cons_of_mem _ hr.2⟩
        · exact absurd h (by simp)
      · split at h
        · rename_i r f2 hrest
          simp only [Option.some.injEq, Prod.mk.injEq] at h
          have hr := ih r f2 hmem2 hdet hred hrest
          refine ⟨?_, h.1 ▸ List.mem_cons_of_mem _ hr.2⟩
          rw [← h.2, hr.1]
        · exact absurd h (by simp)

/-- C9.  Standalone detection runs on the stringified value but redaction
passes non-string values through: a record field holding a non-string
primitive whose textual form matches a standalone grammar makes the record's
PII flag true while the field's value appears unredacted in the returned
mapping. -/
theorem standalone_flag_nonstring_unredacted (data : List (String × JVal))
    (k : String) (v : JVal) (out : List (String × JVal)) (flag : Bool)
    (hmem : (k, v) ∈ data) (hstr : ∀ s, v ≠ JVal.str s)
    (hdet : detect_standalone_pii (pyStr v) = true)
    (h : processData data = some (out, flag)) :
    flag = true ∧ (k, v) ∈ out := by
  unfold processData at h
  split at h
  · exact absurd h (by simp)
  · rename_i d1 hasPii hp
    have hm := pass1_detected_mem data k v d1 hasPii hmem hdet
      (redact_value_nonstr k v hstr) hp
    rw [hm.1] at h
    rw [if_neg (fun hc => Bool.noConfusion hc.1)] at h
    simp only [Option.some.injEq, Prod.mk.injEq] at h
    exact ⟨h.2.symm, h.1 ▸ hm.2⟩

/-- Witness for C9 at the record `{'x': 9876543210}` (a JSON number whose
decimal text is a ten-digit phone token). -/
theorem standalone_flag_nonstring_unredacted_witness :
    (true : Bool) = true ∧
      ("x", JVal.num 9876543210) ∈ ([("x", JVal.num 9876543210)] : List (String × JVal)) :=
  standalone_flag_nonstring_unredacted [("x", JVal.num 9876543210)] "x"
    (JVal.num 9876543210) [("x", JVal.num 9876543210)] true
    (List.mem_cons_self _ _) (fun s h => JVal.noConfusion h) (by decide) (by decide)

/-- A position holding the character `c` puts `c` in the text. -/
theorem mem_of_charIs (cs : List Char) (i : Nat) (c : Char) (h : charIs cs i c = true) :
    c ∈ cs := by
  unfold charIs at h
  split at h
  · rename_i c2 hget
    rw [beq_iff_eq] at h
    exact h ▸ List.get?_mem hget
  · exact Bool.noConfusion h

/-- Both alternatives of the UPI pattern contain a literal `@`, so any text
the pattern matches contains the character `@`. -/
theorem upi_search_has_at (v : String) (h : upi_search v = true) : '@' ∈ v.data := by
  simp only [upi_search, Bool.or_eq_true, List.any_eq_true] at h
  rcases h with ⟨a, _, b, _, c, _, d, _, h1⟩ | ⟨i, _, j, _, h2⟩
  · simp only [upiAlt1At, Bool.and_eq_true] at h1
    exact mem_of_charIs _ _ _ h1.1.1.1.1.2
  · simp only [upiAlt2At, Bool.and_eq_true] at h2
    exact mem_of_charIs _ _ _ h2.1.1.1.2

/-- C10.  The no-`@` fallback of the `upi_id` masking rule is unreachable:
whenever the UPI pattern matches `v`, the string contains `@`, so
`redact_value 'upi_id'` always takes the split-at-`@` transform (first two
characters of the local part, `XXX@`, domain unchanged) and never the
`v[:2] + 'XXXXXX' + v[-4:]` fallback. -/
theorem upi_match_takes_split_branch (v : String) (h : upi_search v = true) :
    '@' ∈ v.data ∧
    redact_value "upi_id" (JVal.str v) =
      some (JVal.str (String.mk ((splitAtFirst v.data '@').1.take 2) ++ "XXX@" ++
        String.mk (splitAtFirst v.data '@').2)) := by
  have hat := upi_search_has_at v h
  refine ⟨hat, ?_⟩
  simp [redact_value, h, hat]

/-- Witness for C10 at a concrete UPI-shaped value. -/
theorem upi_match_takes_split_branch_witness :
    upi_search "a@b.c" = true ∧
    ('@' ∈ "a@b.c".data ∧
      redact_value "upi_id" (JVal.str "a@b.c") =
        some (JVal.str (String.mk ((splitAtFirst "a@b.c".data '@').1.take 2) ++ "XXX@" ++
          String.mk (splitAtFirst "a@b.c".data '@').2))) :=
  ⟨by decide, upi_match_takes_split_branch "a@b.c" (by decide)⟩

/-- A digit run of length `n ≥ 1` anchored at `i` ends within the text. -/
theorem digitsAt_le (cs : List Char) (i n : Nat) (hn : 1 ≤ n)
    (h : digitsAt cs i n = true) : i + n ≤ cs.length := by
  unfold digitsAt at h
  rw [List.all_eq_true] at h
  have h9 := h (n - 1) (List.mem_range.mpr (by omega))
  split at h9
  · rename_i c hget
    obtain ⟨hlt, _⟩ := List.get?_eq_some.mp hget
    omega
  · exact Bool.noConfusion h9

/-- In an all-digit text, every in-range position holds a word character. -/
theorem isWordAt_of_digits (cs : List Char) (hd : ∀ c ∈ cs, c.isDigit = true)
    (j : Nat) (hj : j < cs.length) : isWordAt cs j = true := by
  unfold isWordAt
  rw [List.get?_eq_get hj]
  have hc := hd (cs.get ⟨j, hj⟩) (List.get_mem cs j hj)
  simp only [isWordChar, Char.isAlphanum]
  simp only [Bool.or_eq_true, beq_iff_eq]
  exact Or.inl (Or.inr hc)

/-- Past the end of the text there is no word character. -/
theorem isWordAt_oob (cs : List Char) (j : Nat) (hj : cs.length ≤ j) :
    isWordAt cs j = false := by
  unfold isWordAt
  rw [List.get?_len_le hj]

/-- A decimal digit is not an ASCII uppercase letter. -/
theorem not_upper_of_digit (c : Char) (h : c.isDigit = true) :
    (decide ('A' ≤ c) && decide (c ≤ 'Z')) = false := by
  simp only [Char.isDigit, Bool.and_eq_true, decide_eq_true_eq] at h
  have h9 : c ≤ '9' := by
    rw [Char.le_def]
    exact h.2
  have hA : ¬ ('A' ≤ c) := fun hle => absurd (le_trans hle h9) (by decide)
  simp [hA]

/-- In an all-digit text of length other than `n`, the pattern `\b\d{n}\b`
matches at no position: a start other than 0 or an end other than the text's
end sits next to a digit, which is a word character, so the required word
boundary fails. -/
theorem boundedDigitsAt_digits_false (cs : List Char)
    (hd : ∀ c ∈ cs, c.isDigit = true) (n : Nat) (hn : 1 ≤ n)
    (hlen : cs.length ≠ n) : ∀ i, boundedDigitsAt cs i n = false := by
  intro i
  by_contra hb
  rw [Bool.not_eq_false] at hb
  simp only [boundedDigitsAt, Bool.and_eq_true] at hb
  obtain ⟨⟨hb1, hdig⟩, hb2⟩ := hb
  have hle := digitsAt_le cs i n hn hdig
  have hilt : i < cs.length := by omega
  have hi0 : i = 0 := by
    by_contra h0
    rcases Nat.exists_eq_succ_of_ne_zero h0 with ⟨j, hj⟩
    subst hj
    have hw1 : isWordAt cs j = true := isWordAt_of_digits cs hd j (by omega)
    have hw2 : isWordAt cs (j + 1) = true := isWordAt_of_digits cs hd (j + 1) hilt
    simp only [boundaryAt, hw1, hw2] at hb1
    exact Bool.noConfusion hb1
  subst hi0
  rcases Nat.exists_eq_succ_of_ne_zero (show n ≠ 0 by omega) with ⟨m, hm⟩
  subst hm
  simp only [Nat.zero_add] at hb2
  have hw1 : isWordAt cs m = true := isWordAt_of_digits cs hd m (by omega)
  simp only [boundaryAt, hw1] at hb2
  have hwf : isWordAt cs (m + 1) = false := by
    cases hx : isWordAt cs (m + 1) with
    | false => rfl
    | true => rw [hx] at hb2; exact Bool.noConfusion hb2
  have hlen2 : cs.length ≤ m + 1 := by
    by_contra hh
    rw [isWordAt_of_digits cs hd (m + 1) (by omega)] at hwf
    exact Bool.noConfusion hwf
  omega

/-- `re.search` for `\b\d{n}\b` fails on any all-digit string whose length
is not `n`. -/
theorem searchDigitRun_digits_false (s : String) (hd : ∀ c ∈ s.data, c.isDigit = true)
    (n : Nat) (hn : 1 ≤ n) (hlen : s.data.length ≠ n) : searchDigitRun s n = false := by
  unfold searchDigitRun
  rw [List.any_eq_false]
  intro i _
  rw [boundedDigitsAt_digits_false s.data hd n hn hlen i]
  exact Bool.noConfusion

/-- The passport pattern needs an uppercase letter, so it fails on any
all-digit string. -/
theorem passport_search_digits_false (s : String)
    (hd : ∀ c ∈ s.data, c.isDigit = true) : passport_search s = false := by
  cases hp : passport_search s with
  | false => rfl
  | true =>
    exfalso
    unfold passport_search at hp
    rw [List.any_eq_true] at hp
    obtain ⟨i, _, hi⟩ := hp
    simp only [passportAt, Bool.and_eq_true] at hi
    have hup := hi.1.1.2
    unfold upperAt at hup
    split at hup
    · rename_i c hget
      rw [not_upper_of_digit c (hd c (List.get?_mem hget))] at hup
      exact Bool.noConfusion hup
    · exact Bool.noConfusion hup

/-- The UPI pattern needs an `@`, so it fails on any all-digit string. -/
theorem upi_search_digits_false (s : String)
    (hd : ∀ c ∈ s.data, c.isDigit = true) : upi_search s = false := by
  cases hu : upi_search s with
  | false => rfl
  | true =>
    exfalso
    have := hd '@' (upi_search_has_at s hu)
    exact absurd this (by decide)

/-- C5.  `detect_standalone_pii` returns true for every string containing a
word-bounded run of exactly ten decimal digits (the phone pattern matches),
and returns false for every bare run of exactly 9 or exactly 11 decimal
digits: no pattern can match there, the embedded ten-digit substring of an
11-digit run being ruled out because the position next to it holds another
digit, i.e. a word character. -/
theorem detect_standalone_phone_boundaries :
    (∀ (s : String) (i : Nat), boundedDigitsAt s.data i 10 = true →
      detect_standalone_pii s = true)
    ∧ (∀ s : String, (∀ c ∈ s.data, c.isDigit = true) →
        s.data.length = 9 ∨ s.data.length = 11 → detect_standalone_pii s = false) := by
  constructor
  · intro s i h
    have hdig : digitsAt s.data i 10 = true := by
      simp only [boundedDigitsAt, Bool.and_eq_true] at h
      exact h.1.2
    have hle := digitsAt_le s.data i 10 (by omega) hdig
    have hp : phone_search s = true := by
      unfold phone_search searchDigitRun
      rw [List.any_eq_true]
      exact ⟨i, List.mem_range.mpr (by omega), h⟩
    simp [detect_standalone_pii, hp]
  · intro s hd hlen
    have hne10 : s.data.length ≠ 10 := by rcases hlen with h | h <;> omega
    have hne12 : s.data.length ≠ 12 := by rcases hlen with h | h <;> omega
    have h10 : phone_search s = false :=
      searchDigitRun_digits_false s hd 10 (by omega) hne10
    have h12 : aadhar_search s = false :=
      searchDigitRun_digits_false s hd 12 (by omega) hne12
    have hpass : passport_search s = false := passport_search_digits_false s hd
    have hupi : upi_search s = false := upi_search_digits_false s hd
    simp [detect_standalone_pii, h10, h12, hpass, hupi]

/-- Witness for C5 at concrete 10-, 9- and 11-digit runs. -/
theorem detect_standalone_phone_boundaries_witness :
    detect_standalone_pii "9876543210" = true ∧
    detect_standalone_pii "987654321" = false ∧
    detect_standalone_pii "98765432109" = false :=
  ⟨detect_standalone_phone_boundaries.1 "9876543210" 0 (by decide),
   detect_standalone_phone_boundaries.2 "987654321" (by decide) (Or.inl (by decide)),
   detect_standalone_phone_boundaries.2 "98765432109" (by decide) (Or.inr (by decide))⟩
